import Mathlib

/-!
# Verification of the staged-import pipeline of `backend_soul`

Shallow embedding of `app/core/logic_upload_excel.py`: the import
orchestrator (`process_excel_async`), the review/edit surface
(`get_uploaded_sheets_by_user`, `update_imported_row`,
`cancel_user_preview`) and the confirmation committer
(`confirm_import_to_service`), together with proofs of the behavioural
claims stated in the specification.

The relational store is modelled as explicit lists (`data_imported`,
`data_errors`, `service`); each row-level commit of the Python code is an
append on those lists.  Wall-clock time is modelled by attaching to every
parsed row the amount of time its processing consumes; the orchestrator
threads a clock through the run and performs the same `> max_time` check
the source performs at the end of a row iteration — except after an
empty-name row, whose `continue` in the source skips the check.
-/

namespace BackendSoul

/-- A raw spreadsheet cell value as produced by the tabular parser
(after `df.fillna("")`): a string, an integer, or a boolean. -/
inductive Val where
  | vStr (s : String)
  | vInt (n : Int)
  | vBool (b : Bool)
deriving DecidableEq, Repr

/-- Digits of a numeral to the natural number they denote. -/
def digitsToNat (cs : List Char) : Nat :=
  cs.foldl (fun n c => n * 10 + (c.toNat - ('0').toNat)) 0

/-- Python `int(s)` on a stripped string: optional sign followed by at
least one digit. -/
def parseIntChars : List Char → Option Int
  | [] => none
  | '+' :: cs =>
      if cs ≠ [] ∧ cs.all Char.isDigit then some (digitsToNat cs) else none
  | '-' :: cs =>
      if cs ≠ [] ∧ cs.all Char.isDigit then some (-(digitsToNat cs : Int)) else none
  | cs =>
      if cs.all Char.isDigit then some (digitsToNat cs) else none

/-- Python `float(s)` on a stripped string: optional sign, integer part,
optional fractional part, at least one digit overall. -/
def parseDecCore : List Char → Option ℚ
  | cs =>
    let (ip, rest) := cs.span Char.isDigit
    match rest with
    | [] => if ip ≠ [] then some (digitsToNat ip : ℚ) else none
    | '.' :: fp =>
        if fp.all Char.isDigit ∧ (ip ≠ [] ∨ fp ≠ []) then
          some ((digitsToNat ip : ℚ) + (digitsToNat fp : ℚ) / ((10 : ℚ) ^ fp.length))
        else none
    | _ => none

/-- Sign handling of Python `float(s)`. -/
def parseDecChars : List Char → Option ℚ
  | '+' :: cs => parseDecCore cs
  | '-' :: cs => (parseDecCore cs).map (fun q => -q)
  | cs => parseDecCore cs

/-- Python `s.strip()`: drop leading and trailing whitespace. -/
def pyStrip (s : String) : String :=
  ⟨((s.data.dropWhile Char.isWhitespace).reverse.dropWhile Char.isWhitespace).reverse⟩

/-- Python `str(v)`. -/
def pyStr : Val → String
  | .vStr s => s
  | .vInt n => toString n
  | .vBool b => if b then "True" else "False"

/-- Python `int(v)`: `none` models the `ValueError` raised on an
unparseable string. -/
def pyInt : Val → Option Int
  | .vStr s => parseIntChars (pyStrip s).data
  | .vInt n => some n
  | .vBool b => some (if b then 1 else 0)

/-- Python `float(v)`: `none` models the `ValueError` raised on an
unparseable string.  Decimals are embedded as rationals. -/
def pyFloat : Val → Option ℚ
  | .vStr s => parseDecChars (pyStrip s).data
  | .vInt n => some (n : ℚ)
  | .vBool b => some (if b then 1 else 0)

/-- Python `bool(v)` (never raises on these value shapes). -/
def pyBool : Val → Bool
  | .vStr s => s ≠ ""
  | .vInt n => n ≠ 0
  | .vBool b => b

/-- Python `s.isdigit()`: non-empty and all digits. -/
def isDigitsStr (s : String) : Bool :=
  s ≠ "" && s.data.all Char.isDigit

/-- The state coercion `bool(int(x) if str(x).isdigit() else x)` used for
the `state` column; `none` models an exception (unreachable for these
value shapes, routed to the unexpected-error branch). -/
def coerceState (v : Val) : Option Bool :=
  if isDigitsStr (pyStr v) then (pyInt v).map (fun n => n ≠ 0)
  else some (pyBool v)

/-- One staged row of the `data_imported` quarantine table. -/
structure StagedRow where
  id_import : Nat
  sheet_name : String
  name : String
  description : Option String
  duration_minutes : Int
  price : ℚ
  state : Bool
  user_id : Nat
deriving DecidableEq, Repr

/-- The structured content of a staging error message. -/
inductive ErrMsg where
  /-- `Estructura inválida: faltan columnas ...` (sheet-level). -/
  | missingColumns (cols : List String)
  /-- `Nombre vacío`. -/
  | emptyName
  /-- `Duración inválida`. -/
  | invalidDuration
  /-- `Precio negativo`. -/
  | negativePrice
  /-- `ValueError` text of a failed `int(...)` conversion. -/
  | intParseError (v : Val)
  /-- `ValueError` text of a failed `float(...)` conversion. -/
  | floatParseError (v : Val)
  /-- `Error inesperado: ...` from the generic per-row handler. -/
  | stateError (v : Val)
  /-- `Error procesando hoja: Tiempo máximo {t}s excedido.` (sheet-level). -/
  | sheetTimeout (maxTime : Nat)
deriving DecidableEq, Repr

/-- One row of the `data_errors` quarantine table. -/
structure StagingError where
  sheet_name : String
  row_num : Nat
  error_message : ErrMsg
  user_id : Nat
deriving DecidableEq, Repr

/-- One row of the live `service` catalog table. -/
structure Service where
  id_service : Nat
  name : String
  description : Option String
  duration_minutes : Int
  price : ℚ
  state : Bool
deriving DecidableEq, Repr

/-- The relational store: the two quarantine tables, the live catalog,
and the auto-increment counters of the store. -/
structure DB where
  data_imported : List StagedRow
  data_errors : List StagingError
  service : List Service
  next_import_id : Nat
  next_service_id : Nat
deriving DecidableEq, Repr

/-- `INSERT INTO data_errors ...` (autocommit). -/
def DB.addError (db : DB) (e : StagingError) : DB :=
  { db with data_errors := db.data_errors ++ [e] }

/-- `INSERT INTO data_imported ...` (autocommit); the store assigns the
next staging id. -/
def DB.addImported (db : DB) (user : Nat) (sheet name : String)
    (desc : Option String) (dur : Int) (price : ℚ) (st : Bool) : DB :=
  { db with
      data_imported := db.data_imported ++
        [{ id_import := db.next_import_id, sheet_name := sheet, name := name,
           description := desc, duration_minutes := dur, price := price,
           state := st, user_id := user }],
      next_import_id := db.next_import_id + 1 }

/-- A parsed row: mapping from column name to raw cell value. -/
abbrev Row := List (String × Val)

/-- `row.get(c, "")` after `fillna("")`: missing cells read as `""`. -/
def rowGet (row : Row) (c : String) : Val :=
  ((row.find? (fun p => p.1 = c)).map (fun p => p.2)).getD (.vStr "")

/-- `EXPECTED_COLUMNS`, in a fixed order. -/
def expectedColumns : List String :=
  ["name", "description", "duration_minutes", "price", "state"]

/-- One sheet of an uploaded workbook.  `rows` pairs each parsed row with
the wall-clock time its processing consumes (the advance of `time.time()`
observed at the per-row budget check). -/
structure Sheet where
  sheet_name : String
  columns : List String
  rows : List (Row × Nat)
deriving DecidableEq, Repr

/-- Missing required columns of a sheet (`EXPECTED_COLUMNS - set(df.columns)`). -/
def missingCols (s : Sheet) : List String :=
  expectedColumns.filter (fun c => decide (c ∉ s.columns))

/-- `str(row.get("description", "")).strip() or None`. -/
def descOf (row : Row) : Option String :=
  let d := pyStrip (pyStr (rowGet row "description"))
  if d = "" then none else some d

/-- Validation and staging of a single data row (the body of the per-row
loop of `process_excel_async`), at reported row number `rowNum`. -/
def processRow (user : Nat) (sheet : String) (rowNum : Nat) (db : DB)
    (row : Row) : DB :=
  if pyStrip (pyStr (rowGet row "name")) = "" then
    db.addError ⟨sheet, rowNum, .emptyName, user⟩
  else
    match pyInt (rowGet row "duration_minutes") with
    | none => db.addError ⟨sheet, rowNum, .intParseError (rowGet row "duration_minutes"), user⟩
    | some dur =>
      match pyFloat (rowGet row "price") with
      | none => db.addError ⟨sheet, rowNum, .floatParseError (rowGet row "price"), user⟩
      | some price =>
        match coerceState (rowGet row "state") with
        | none => db.addError ⟨sheet, rowNum, .stateError (rowGet row "state"), user⟩
        | some st =>
          if dur ≤ 0 then db.addError ⟨sheet, rowNum, .invalidDuration, user⟩
          else if price < 0 then db.addError ⟨sheet, rowNum, .negativePrice, user⟩
          else db.addImported user sheet (pyStrip (pyStr (rowGet row "name")))
            (descOf row) dur price st

/-- The row loop of one sheet.  `idx` is the 0-based row index (reported
as `idx + 2`); `now` is the elapsed wall-clock time.  Returns the store,
the clock, and whether the time budget raised `TimeoutError`.  The
empty-name branch mirrors the source's `continue`: it records the error
and moves to the next row WITHOUT reaching the budget check (time still
advances); every other outcome falls through to the check. -/
def processRows (user maxTime : Nat) (sheet : String) :
    DB → Nat → Nat → List (Row × Nat) → DB × Nat × Bool
  | db, now, _, [] => (db, now, false)
  | db, now, idx, (row, cost) :: rest =>
    if pyStrip (pyStr (rowGet row "name")) = "" then
      processRows user maxTime sheet (processRow user sheet (idx + 2) db row)
        (now + cost) (idx + 1) rest
    else if maxTime < now + cost then
      (processRow user sheet (idx + 2) db row, now + cost, true)
    else
      processRows user maxTime sheet (processRow user sheet (idx + 2) db row)
        (now + cost) (idx + 1) rest

/-- The per-file summary built by `process_excel_async`. -/
structure ImportResults where
  filename : String
  valid_sheets : List String
  invalid_sheets : List String
  total_rows : Nat
deriving DecidableEq, Repr

/-- Processing of one sheet: column check, then the row loop; a timeout
is caught by the per-sheet handler, which records a sheet-level error and
marks the sheet invalid. -/
def processSheet (user maxTime : Nat) (st : DB × Nat) (res : ImportResults)
    (s : Sheet) : (DB × Nat) × ImportResults :=
  if missingCols s ≠ [] then
    ((st.1.addError ⟨s.sheet_name, 0, .missingColumns (missingCols s), user⟩, st.2),
     { res with invalid_sheets := res.invalid_sheets ++ [s.sheet_name] })
  else
    let res1 := { res with
                    valid_sheets := res.valid_sheets ++ [s.sheet_name],
                    total_rows := res.total_rows + s.rows.length }
    match processRows user maxTime s.sheet_name st.1 st.2 0 s.rows with
    | (db1, now1, true) =>
        ((db1.addError ⟨s.sheet_name, 0, .sheetTimeout maxTime, user⟩, now1),
         { res1 with invalid_sheets := res1.invalid_sheets ++ [s.sheet_name] })
    | (db1, now1, false) => ((db1, now1), res1)

/-- The sheet loop of `process_excel_async`. -/
def processSheets (user maxTime : Nat) :
    (DB × Nat) → ImportResults → List Sheet → (DB × Nat) × ImportResults
  | st, res, [] => (st, res)
  | st, res, s :: rest =>
    processSheets user maxTime (processSheet user maxTime st res s).1
      (processSheet user maxTime st res s).2 rest

/-- `process_excel_async`: processes every sheet of the workbook starting
from elapsed time `now`, returning the updated store and the summary. -/
def processExcel (user maxTime : Nat) (filename : String)
    (sheets : List Sheet) (db : DB) (now : Nat) : DB × ImportResults :=
  ((processSheets user maxTime (db, now)
      { filename := filename, valid_sheets := [], invalid_sheets := [],
        total_rows := 0 } sheets).1.1,
   (processSheets user maxTime (db, now)
      { filename := filename, valid_sheets := [], invalid_sheets := [],
        total_rows := 0 } sheets).2)

/-! ## Review/edit surface -/

/-- One entry of the per-sheet grouping returned by
`get_uploaded_sheets_by_user`. -/
structure SheetGroup where
  sheet : String
  data : List StagedRow
  errors : List StagingError
deriving DecidableEq, Repr

/-- The value returned by `get_uploaded_sheets_by_user`: the per-sheet
groups and the aggregate summary fields. -/
structure ListStagedResult where
  groups : List SheetGroup
  total_sheets : Nat
  total_rows : Nat
  total_errors : Nat
  has_invalid_sheets : Bool
deriving DecidableEq, Repr

/-- Distinct values of a list, keeping the first occurrence of each
(`SELECT DISTINCT`). -/
def distinctList (l : List String) : List String :=
  l.foldl (fun acc s => if s ∈ acc then acc else acc ++ [s]) []

/-- `SELECT DISTINCT sheet_name FROM data_imported WHERE user_id = %s`. -/
def userSheets (db : DB) (user : Nat) : List String :=
  distinctList ((db.data_imported.filter
    (fun r => decide (r.user_id = user))).map (fun r => r.sheet_name))

/-- The per-sheet group of a sheet that has staged data. -/
def dataGroupOf (db : DB) (user : Nat) (s : String) : SheetGroup :=
  { sheet := s,
    data := db.data_imported.filter
      (fun r => decide (r.user_id = user) && decide (r.sheet_name = s)),
    errors := db.data_errors.filter
      (fun e => decide (e.user_id = user) && decide (e.sheet_name = s)) }

/-- The distinct error sheet names that have no staged data (the
`NOT IN` subquery of `get_uploaded_sheets_by_user`). -/
def errorOnlySheets (db : DB) (user : Nat) : List String :=
  (distinctList ((db.data_errors.filter
    (fun e => decide (e.user_id = user))).map (fun e => e.sheet_name))).filter
    (fun s => decide (s ∉ userSheets db user))

/-- The per-sheet group of an error-only sheet: empty data list. -/
def errorGroupOf (db : DB) (user : Nat) (s : String) : SheetGroup :=
  { sheet := s,
    data := ([] : List StagedRow),
    errors := db.data_errors.filter
      (fun e => decide (e.user_id = user) && decide (e.sheet_name = s)) }

/-- `get_uploaded_sheets_by_user`: groups staged rows and errors by sheet,
appends the error-only sheets with an empty data list, and aggregates the
summary exactly as the source does (`total_sheets` is the number of
distinct sheets of `data_imported` only). -/
def getUploadedSheetsByUser (db : DB) (user : Nat) : ListStagedResult :=
  { groups := (userSheets db user).map (dataGroupOf db user) ++
      (errorOnlySheets db user).map (errorGroupOf db user),
    total_sheets := (userSheets db user).length,
    total_rows := (((userSheets db user).map (dataGroupOf db user)).map
      (fun g => g.data.length)).sum,
    total_errors := (((userSheets db user).map (dataGroupOf db user)).map
        (fun g => g.errors.length)).sum +
      (((errorOnlySheets db user).map (errorGroupOf db user)).map
        (fun g => g.errors.length)).sum,
    has_invalid_sheets := decide ((errorOnlySheets db user).length > 0) }

/-- The outcome messages of `update_imported_row`. -/
inductive UpdMsg where
  /-- `Campos no permitidos: ...`. -/
  | invalidFields (fields : List String)
  /-- `El nombre no puede estar vacío`. -/
  | emptyName
  /-- `La duración debe ser mayor a 0`. -/
  | durationNotPositive
  /-- `Duración inválida`. -/
  | durationInvalid
  /-- `El precio no puede ser negativo`. -/
  | priceNegative
  /-- `Precio inválido`. -/
  | priceInvalid
  /-- `Estado inválido`. -/
  | stateInvalid
  /-- `No hay campos para actualizar`. -/
  | emptyUpdate
  /-- `Registro no encontrado o no autorizado`. -/
  | notFound
  /-- `No se pudo actualizar el registro`. -/
  | notUpdated
  /-- `Registro actualizado exitosamente`. -/
  | updated
deriving DecidableEq, Repr

/-- The field map allowed by `update_imported_row`. -/
def allowedFields : List String :=
  ["name", "description", "duration_minutes", "price", "state"]

/-- The normalized values of the supplied fields after validation. -/
structure NormUpd where
  name : Option String
  description : Option (Option String)
  duration_minutes : Option Int
  price : Option ℚ
  state : Option Bool
deriving DecidableEq, Repr

/-- Dictionary lookup on the update field map. -/
def lookupUpd (upds : List (String × Val)) (k : String) : Option Val :=
  ((upds.find? (fun p => p.1 = k)).map (fun p => p.2))

/-- Validation of a supplied `name` field. -/
def validateName (upds : List (String × Val)) : Except UpdMsg (Option String) :=
  match lookupUpd upds "name" with
  | none => .ok none
  | some v =>
    let n := pyStrip (pyStr v)
    if n = "" then .error .emptyName else .ok (some n)

/-- Validation of a supplied `duration_minutes` field. -/
def validateDuration (upds : List (String × Val)) : Except UpdMsg (Option Int) :=
  match lookupUpd upds "duration_minutes" with
  | none => .ok none
  | some v =>
    match pyInt v with
    | none => .error .durationInvalid
    | some d => if d ≤ 0 then .error .durationNotPositive else .ok (some d)

/-- Validation of a supplied `price` field. -/
def validatePrice (upds : List (String × Val)) : Except UpdMsg (Option ℚ) :=
  match lookupUpd upds "price" with
  | none => .ok none
  | some v =>
    match pyFloat v with
    | none => .error .priceInvalid
    | some p => if p < 0 then .error .priceNegative else .ok (some p)

/-- Validation of a supplied `state` field. -/
def validateState (upds : List (String × Val)) : Except UpdMsg (Option Bool) :=
  match lookupUpd upds "state" with
  | none => .ok none
  | some v =>
    match coerceState v with
    | none => .error .stateInvalid
    | some b => .ok (some b)

/-- Normalization of a supplied `description` field (never fails). -/
def normDescription (upds : List (String × Val)) : Option (Option String) :=
  match lookupUpd upds "description" with
  | none => none
  | some v =>
    let d := pyStrip (pyStr v)
    some (if d = "" then none else some d)

/-- The validation phase of `update_imported_row`: unknown fields are
rejected first, then each supplied field is re-validated in the source's
order (name, duration, price, state, description). -/
def validateUpdates (upds : List (String × Val)) : Except UpdMsg NormUpd :=
  if (upds.map (fun p => p.1)).filter (fun k => decide (k ∉ allowedFields)) ≠ [] then
    .error (.invalidFields
      ((upds.map (fun p => p.1)).filter (fun k => decide (k ∉ allowedFields))))
  else do
    let n ← validateName upds
    let d ← validateDuration upds
    let p ← validatePrice upds
    let s ← validateState upds
    .ok { name := n, description := normDescription upds,
          duration_minutes := d, price := p, state := s }

/-- Application of the dynamic `UPDATE ... SET` clause to one row. -/
def applyNorm (n : NormUpd) (r : StagedRow) : StagedRow :=
  { r with
      name := n.name.getD r.name,
      description := n.description.getD r.description,
      duration_minutes := n.duration_minutes.getD r.duration_minutes,
      price := n.price.getD r.price,
      state := n.state.getD r.state }

/-- `update_imported_row`: validates the field map, checks ownership, and
applies the update as one statement; `rowcount == 0` (no value actually
changed) is reported as a failure. -/
def updateImportedRow (db : DB) (user idImport : Nat)
    (upds : List (String × Val)) : (Bool × UpdMsg) × DB :=
  match validateUpdates upds with
  | .error m => ((false, m), db)
  | .ok norm =>
    if upds = [] then ((false, .emptyUpdate), db)
    else
      match db.data_imported.find?
        (fun r => decide (r.id_import = idImport) && decide (r.user_id = user)) with
      | none => ((false, .notFound), db)
      | some _ =>
        if db.data_imported.map (fun r =>
             if r.id_import = idImport ∧ r.user_id = user then applyNorm norm r else r) =
           db.data_imported then ((false, .notUpdated), db)
        else ((true, .updated),
          { db with
              data_imported := db.data_imported.map (fun r =>
                if r.id_import = idImport ∧ r.user_id = user then applyNorm norm r else r) })

/-- The deletion counters returned by `cancel_user_preview`. -/
structure CancelStats where
  deleted_rows : Nat
  deleted_errors : Nat
  total_deleted : Nat
deriving DecidableEq, Repr

/-- `cancel_user_preview`: counts and deletes every staged row and
staging error of the principal; always succeeds. -/
def cancelUserPreview (db : DB) (user : Nat) : (Bool × CancelStats) × DB :=
  ((true,
    { deleted_rows :=
        (db.data_imported.filter (fun r => decide (r.user_id = user))).length,
      deleted_errors :=
        (db.data_errors.filter (fun e => decide (e.user_id = user))).length,
      total_deleted :=
        (db.data_imported.filter (fun r => decide (r.user_id = user))).length +
          (db.data_errors.filter (fun e => decide (e.user_id = user))).length }),
   { db with
       data_imported := db.data_imported.filter (fun r => decide (¬ r.user_id = user)),
       data_errors := db.data_errors.filter (fun e => decide (¬ e.user_id = user)) })

/-! ## Confirmation committer -/

/-- The aggregate statistics of `confirm_import_to_service`; `errors`
records the names of the records whose insert failed. -/
structure ConfirmStats where
  total_processed : Nat
  inserted : Nat
  duplicated : Nat
  failed : Nat
  errors : List String
deriving DecidableEq, Repr

/-- The all-zero initial statistics. -/
def emptyStats : ConfirmStats :=
  { total_processed := 0, inserted := 0, duplicated := 0, failed := 0, errors := [] }

/-- `SELECT id_service FROM service WHERE name = %s` is non-empty. -/
def serviceExists (services : List Service) (n : String) : Bool :=
  services.any (fun s => s.name = n)

/-- Lexicographic character-list comparison (the order on strings). -/
def charsLt : List Char → List Char → Bool
  | [], [] => false
  | [], _ :: _ => true
  | _ :: _, [] => false
  | a :: as, b :: bs =>
    if a.toNat < b.toNat then true
    else if a.toNat = b.toNat then charsLt as bs
    else false

/-- Strict lexicographic order on strings. -/
def strLtB (a b : String) : Bool := charsLt a.data b.data

/-- The `ORDER BY sheet_name, id_import` key comparison. -/
def rowLe (a b : StagedRow) : Bool :=
  strLtB a.sheet_name b.sheet_name ||
    (decide (a.sheet_name = b.sheet_name) && decide (a.id_import ≤ b.id_import))

/-- Stable insertion into a list sorted by `rowLe`. -/
def insertSorted (a : StagedRow) : List StagedRow → List StagedRow
  | [] => [a]
  | b :: rest => if rowLe b a then b :: insertSorted a rest else a :: b :: rest

/-- Insertion sort by `rowLe` (the committer's `ORDER BY`). -/
def sortRows : List StagedRow → List StagedRow
  | [] => []
  | a :: rest => insertSorted a (sortRows rest)

/-- The staged rows fetched by the committer: the principal's rows
restricted to the selected sheets, ordered by sheet then staging id. -/
def fetchStaged (db : DB) (user : Nat) (selectedSheets : List String) :
    List StagedRow :=
  sortRows (db.data_imported.filter (fun r =>
    decide (r.user_id = user) && decide (r.sheet_name ∈ selectedSheets)))

/-- The per-record loop of `confirm_import_to_service`.  `insertFails`
models a store error raised by the `INSERT` of a given record (rolled
back, counted as failed).  The duplicated branch mirrors the source's
`continue`: it skips the `total_processed` increment. -/
def confirmRecords (insertFails : StagedRow → Bool) :
    List Service → Nat → ConfirmStats → List StagedRow →
    List Service × Nat × ConfirmStats
  | svcs, nextId, stats, [] => (svcs, nextId, stats)
  | svcs, nextId, stats, r :: rest =>
    if serviceExists svcs r.name then
      confirmRecords insertFails svcs nextId
        { stats with duplicated := stats.duplicated + 1 } rest
    else if insertFails r then
      confirmRecords insertFails svcs nextId
        { stats with
            failed := stats.failed + 1,
            errors := stats.errors ++ [r.name],
            total_processed := stats.total_processed + 1 } rest
    else
      confirmRecords insertFails
        (svcs ++ [{ id_service := nextId, name := r.name,
                    description := r.description,
                    duration_minutes := r.duration_minutes,
                    price := r.price, state := r.state }])
        (nextId + 1)
        { stats with
            inserted := stats.inserted + 1,
            total_processed := stats.total_processed + 1 } rest

/-- `confirm_import_to_service`: fetches the staged rows of the selected
sheets; an empty fetch returns immediately without clearing; otherwise
every record is processed and then all staging data of the principal is
deleted. -/
def confirmImportToService (insertFails : StagedRow → Bool) (db : DB)
    (user : Nat) (selectedSheets : List String) : DB × ConfirmStats :=
  if fetchStaged db user selectedSheets = [] then (db, emptyStats)
  else
    ({ db with
         service := (confirmRecords insertFails db.service db.next_service_id
           emptyStats (fetchStaged db user selectedSheets)).1,
         next_service_id := (confirmRecords insertFails db.service db.next_service_id
           emptyStats (fetchStaged db user selectedSheets)).2.1,
         data_imported := db.data_imported.filter (fun r => decide (¬ r.user_id = user)),
         data_errors := db.data_errors.filter (fun e => decide (¬ e.user_id = user)) },
     (confirmRecords insertFails db.service db.next_service_id
       emptyStats (fetchStaged db user selectedSheets)).2.2)

/-! ## Concrete example data (used by counterexamples and witnesses) -/

/-- An empty store. -/
def exDB : DB :=
  { data_imported := [], data_errors := [], service := [],
    next_import_id := 1, next_service_id := 1 }

/-- A staged row named `A` for principal 1 on sheet `S`. -/
def exRowA : StagedRow :=
  { id_import := 1, sheet_name := "S", name := "A", description := none,
    duration_minutes := 30, price := 10, state := true, user_id := 1 }

/-- A catalog service named `A`. -/
def exSvcA : Service :=
  { id_service := 1, name := "A", description := none,
    duration_minutes := 30, price := 10, state := true }

/-- A staged row named `Haircut` on sheet `S1`. -/
def exRowH1 : StagedRow :=
  { exRowA with id_import := 1, sheet_name := "S1", name := "Haircut" }

/-- A staged row named `Haircut` on sheet `S2`. -/
def exRowH2 : StagedRow :=
  { exRowA with id_import := 2, sheet_name := "S2", name := "Haircut" }

/-- A fully valid parsed row. -/
def goodRow : Row :=
  [("name", .vStr "Cut"), ("description", .vStr ""),
   ("duration_minutes", .vInt 30), ("price", .vInt 10), ("state", .vInt 1)]

/-- A parsed row with an invalid (negative) duration. -/
def badRow : Row :=
  [("name", .vStr "X"), ("duration_minutes", .vStr "-5"),
   ("price", .vInt 10), ("state", .vInt 1)]

/-- A parsed row whose name strips to empty (the `continue` branch). -/
def emptyNameRow : Row :=
  [("name", .vStr " "), ("description", .vStr ""),
   ("duration_minutes", .vInt 30), ("price", .vInt 10), ("state", .vInt 1)]

/-- A column-valid sheet whose single row consumes 1000 s, tripping the
180 s budget. -/
def sheetTO : Sheet :=
  { sheet_name := "S", columns := expectedColumns, rows := [(goodRow, 1000)] }

/-- A column-valid sheet with one invalid row followed by one valid row. -/
def sheetB : Sheet :=
  { sheet_name := "S", columns := expectedColumns,
    rows := [(badRow, 0), (goodRow, 0)] }

/-- A sheet missing three of the required columns. -/
def sheetM : Sheet :=
  { sheet_name := "M", columns := ["name", "price"], rows := [(goodRow, 0)] }

/-! ## Lemmas on the confirmation committer -/

/-- Each processed record increments exactly one of the three outcome
counters. -/
theorem confirmRecords_sum (fails : StagedRow → Bool) :
    ∀ (recs : List StagedRow) (svcs : List Service) (nid : Nat) (stats : ConfirmStats),
      (confirmRecords fails svcs nid stats recs).2.2.inserted +
        (confirmRecords fails svcs nid stats recs).2.2.duplicated +
        (confirmRecords fails svcs nid stats recs).2.2.failed =
      stats.inserted + stats.duplicated + stats.failed + recs.length := by
  intro recs
  induction recs with
  | nil => intro svcs nid stats; simp [confirmRecords]
  | cons r rest ih =>
    intro svcs nid stats
    simp only [confirmRecords]
    split
    · rw [ih]; simp; omega
    · split
      · rw [ih]; simp; omega
      · rw [ih]; simp; omega

/-- The duplicated branch's `continue` skips the `total_processed`
increment: `total_processed + duplicated` grows by one per record. -/
theorem confirmRecords_tp (fails : StagedRow → Bool) :
    ∀ (recs : List StagedRow) (svcs : List Service) (nid : Nat) (stats : ConfirmStats),
      (confirmRecords fails svcs nid stats recs).2.2.total_processed +
        (confirmRecords fails svcs nid stats recs).2.2.duplicated =
      stats.total_processed + stats.duplicated + recs.length := by
  intro recs
  induction recs with
  | nil => intro svcs nid stats; simp [confirmRecords]
  | cons r rest ih =>
    intro svcs nid stats
    simp only [confirmRecords]
    split
    · rw [ih]; simp; omega
    · split
      · rw [ih]; simp; omega
      · rw [ih]; simp; omega

/-- Number of catalog services carrying a given name. -/
def countName (svcs : List Service) (n : String) : Nat :=
  (svcs.filter (fun s => decide (s.name = n))).length

/-- A name absent from the duplicate check has count zero. -/
theorem countName_eq_zero_of_not_exists (svcs : List Service) (n : String)
    (h : serviceExists svcs n = false) : countName svcs n = 0 := by
  unfold serviceExists at h
  rw [List.any_eq_false] at h
  unfold countName
  rw [List.length_eq_zero, List.filter_eq_nil_iff]
  intro s hs
  simpa using h s hs

/-- The committer's per-record loop never brings the count of a name
above `max (initial count) 1`: an existing name (also one inserted
earlier in the run) is never inserted again. -/
theorem confirmRecords_countName (fails : StagedRow → Bool) :
    ∀ (recs : List StagedRow) (svcs : List Service) (nid : Nat)
      (stats : ConfirmStats) (n : String),
      countName (confirmRecords fails svcs nid stats recs).1 n ≤
        max (countName svcs n) 1 := by
  intro recs
  induction recs with
  | nil =>
    intro svcs nid stats n
    simp [confirmRecords]
  | cons r rest ih =>
    intro svcs nid stats n
    simp only [confirmRecords]
    split
    · exact ih svcs nid _ n
    · split
      · exact ih svcs nid _ n
      · rename_i hex _
        refine le_trans (ih _ _ _ n) ?_
        by_cases hn : r.name = n
        · have h0 : countName svcs n = 0 := by
            apply countName_eq_zero_of_not_exists
            rw [← hn]
            simpa using hex
          have h1 : countName (svcs ++
              [{ id_service := nid, name := r.name, description := r.description,
                 duration_minutes := r.duration_minutes, price := r.price,
                 state := r.state }]) n = 1 := by
            unfold countName at h0 ⊢
            rw [List.filter_append, List.length_append, h0]
            simp [hn]
          rw [h1]
          omega
        · have h1 : countName (svcs ++
              [{ id_service := nid, name := r.name, description := r.description,
                 duration_minutes := r.duration_minutes, price := r.price,
                 state := r.state }]) n = countName svcs n := by
            unfold countName
            rw [List.filter_append, List.length_append]
            simp [hn]
          rw [h1]

/-- Filtering for a predicate after filtering for its negation leaves
nothing. -/
theorem filter_neg_filter {α : Type} (p : α → Bool) (l : List α) :
    (l.filter (fun x => !(p x))).filter p = [] := by
  rw [List.filter_eq_nil_iff]
  intro x hx
  have := List.of_mem_filter hx
  simp at this
  simp [this]

/-! ## Claim C1 -/

/-- C1, counterexample: confirming one staged row whose name already
exists in the catalog yields `inserted + duplicated + failed = 1` but
`total_processed = 0` (the duplicated branch's `continue` skips the
increment), refuting the claimed sum invariant. -/
theorem confirm_sum_claim_counterexample :
    ¬ ((confirmImportToService (fun _ => false)
          { exDB with data_imported := [exRowA], service := [exSvcA] } 1 ["S"]).2.inserted +
        (confirmImportToService (fun _ => false)
          { exDB with data_imported := [exRowA], service := [exSvcA] } 1 ["S"]).2.duplicated +
        (confirmImportToService (fun _ => false)
          { exDB with data_imported := [exRowA], service := [exSvcA] } 1 ["S"]).2.failed =
        (confirmImportToService (fun _ => false)
          { exDB with data_imported := [exRowA], service := [exSvcA] } 1 ["S"]).2.total_processed) := by
  decide

/-- C1, amended: for every confirmation run, the returned stats satisfy
`inserted + duplicated + failed = number of staged rows fetched for the
principal restricted to the requested sheets`, while `total_processed`
equals `inserted + failed` only (duplicated records are skipped by the
`continue` before the `total_processed` increment). -/
theorem confirm_stats_sum (fails : StagedRow → Bool) (db : DB) (user : Nat)
    (sheets : List String) :
    (confirmImportToService fails db user sheets).2.inserted +
        (confirmImportToService fails db user sheets).2.duplicated +
        (confirmImportToService fails db user sheets).2.failed =
      (fetchStaged db user sheets).length ∧
    (confirmImportToService fails db user sheets).2.total_processed =
      (confirmImportToService fails db user sheets).2.inserted +
        (confirmImportToService fails db user sheets).2.failed := by
  unfold confirmImportToService
  split
  · rename_i h
    simp [h, emptyStats]
  · have hs := confirmRecords_sum fails (fetchStaged db user sheets)
      db.service db.next_service_id emptyStats
    have ht := confirmRecords_tp fails (fetchStaged db user sheets)
      db.service db.next_service_id emptyStats
    simp only [emptyStats] at hs ht ⊢
    constructor
    · omega
    · omega

/-! ## Claim C2 -/

/-- C2: confirmation is idempotent with respect to catalog names — the
per-name service count never exceeds `max (initial count) 1`, so a name
already present (also one inserted earlier in the same run) is never
inserted twice; and the concrete two-sheet `Haircut` scenario yields
`inserted = 1`, `duplicated = 1`, and exactly one service named
`Haircut`. -/
theorem confirm_idempotent_names :
    (∀ (fails : StagedRow → Bool) (db : DB) (user : Nat)
       (sheets : List String) (n : String),
       countName (confirmImportToService fails db user sheets).1.service n ≤
         max (countName db.service n) 1) ∧
    ((confirmImportToService (fun _ => false)
        { exDB with data_imported := [exRowH1, exRowH2] } 1 ["S1", "S2"]).2.inserted = 1 ∧
     (confirmImportToService (fun _ => false)
        { exDB with data_imported := [exRowH1, exRowH2] } 1 ["S1", "S2"]).2.duplicated = 1 ∧
     countName (confirmImportToService (fun _ => false)
        { exDB with data_imported := [exRowH1, exRowH2] } 1 ["S1", "S2"]).1.service
       "Haircut" = 1) := by
  refine ⟨?_, by decide, by decide, by decide⟩
  intro fails db user sheets n
  unfold confirmImportToService
  split
  · exact le_max_left _ _
  · simpa using confirmRecords_countName fails (fetchStaged db user sheets)
      db.service db.next_service_id emptyStats n

/-! ## Claim C7 -/

/-- C7: a confirmation run that fetches at least one staged row deletes
every staged row and staging error of the principal, across all sheets,
regardless of per-record failures. -/
theorem confirm_clears_staging (fails : StagedRow → Bool) (db : DB) (user : Nat)
    (sheets : List String) (h : fetchStaged db user sheets ≠ []) :
    (confirmImportToService fails db user sheets).1.data_imported.filter
        (fun r => decide (r.user_id = user)) = [] ∧
    (confirmImportToService fails db user sheets).1.data_errors.filter
        (fun e => decide (e.user_id = user)) = [] := by
  unfold confirmImportToService
  rw [if_neg h]
  constructor
  · simp only []
    have := filter_neg_filter (fun r : StagedRow => decide (r.user_id = user))
      db.data_imported
    simpa [decide_not] using this
  · simp only []
    have := filter_neg_filter (fun e : StagingError => decide (e.user_id = user))
      db.data_errors
    simpa [decide_not] using this

/-- C7, witness: the theorem applied to a one-row staging store. -/
theorem confirm_clears_staging_witness :
    (confirmImportToService (fun _ => false)
        { exDB with data_imported := [exRowA] } 1 ["S"]).1.data_imported.filter
        (fun r => decide (r.user_id = 1)) = [] ∧
    (confirmImportToService (fun _ => false)
        { exDB with data_imported := [exRowA] } 1 ["S"]).1.data_errors.filter
        (fun e => decide (e.user_id = 1)) = [] :=
  confirm_clears_staging (fun _ => false) { exDB with data_imported := [exRowA] }
    1 ["S"] (by decide)

/-! ## Claim C8 -/

/-- C8: `cancel_user_preview` always succeeds, returns the exact counts
of the principal's staged rows and errors, removes them all, and a second
consecutive call succeeds reporting zero deletions. -/
theorem cancel_idempotent (db : DB) (user : Nat) :
    (cancelUserPreview db user).1.1 = true ∧
    (cancelUserPreview db user).1.2.deleted_rows =
      (db.data_imported.filter (fun r => decide (r.user_id = user))).length ∧
    (cancelUserPreview db user).1.2.deleted_errors =
      (db.data_errors.filter (fun e => decide (e.user_id = user))).length ∧
    (cancelUserPreview db user).2.data_imported.filter
      (fun r => decide (r.user_id = user)) = [] ∧
    (cancelUserPreview db user).2.data_errors.filter
      (fun e => decide (e.user_id = user)) = [] ∧
    (cancelUserPreview (cancelUserPreview db user).2 user).1.1 = true ∧
    (cancelUserPreview (cancelUserPreview db user).2 user).1.2.deleted_rows = 0 ∧
    (cancelUserPreview (cancelUserPreview db user).2 user).1.2.deleted_errors = 0 := by
  have hi := filter_neg_filter (fun r : StagedRow => decide (r.user_id = user))
    db.data_imported
  have he := filter_neg_filter (fun e : StagingError => decide (e.user_id = user))
    db.data_errors
  simp only [cancelUserPreview, decide_not]
  refine ⟨trivial, trivial, trivial, hi, he, trivial, ?_, ?_⟩
  · simpa using congrArg List.length hi
  · simpa using congrArg List.length he

/-! ## Claim C3 -/

/-- Inversion of `Except` bind. -/
theorem exceptBind_ok {ε α β : Type} {x : Except ε α} {f : α → Except ε β} {b : β}
    (h : (x >>= f) = .ok b) : ∃ a, x = .ok a ∧ f a = .ok b := by
  cases x with
  | error e => simp [Bind.bind, Except.bind] at h
  | ok a =>
    refine ⟨a, rfl, ?_⟩
    simpa [Bind.bind, Except.bind] using h

/-- If validation succeeded, every phase of it succeeded. -/
theorem validateUpdates_ok_parts (upds : List (String × Val)) (norm : NormUpd)
    (h : validateUpdates upds = .ok norm) :
    (upds.map (fun p => p.1)).filter (fun k => decide (k ∉ allowedFields)) = [] ∧
    (∃ a, validateName upds = .ok a) ∧
    (∃ a, validateDuration upds = .ok a) ∧
    (∃ a, validatePrice upds = .ok a) ∧
    (∃ a, validateState upds = .ok a) := by
  unfold validateUpdates at h
  split at h
  · exact absurd h (by simp)
  · rename_i hinv
    obtain ⟨n, hn, h⟩ := exceptBind_ok h
    obtain ⟨d, hd, h⟩ := exceptBind_ok h
    obtain ⟨p, hp, h⟩ := exceptBind_ok h
    obtain ⟨s, hs, h⟩ := exceptBind_ok h
    exact ⟨not_not.mp hinv, ⟨n, hn⟩, ⟨d, hd⟩, ⟨p, hp⟩, ⟨s, hs⟩⟩

/-- A supplied `name` that validated cannot be empty after stripping. -/
theorem validateName_ok_lookup {upds : List (String × Val)} {a : Option String}
    {v : Val} (h : validateName upds = .ok a)
    (hl : lookupUpd upds "name" = some v) : pyStrip (pyStr v) ≠ "" := by
  unfold validateName at h
  simp only [hl] at h
  intro hc
  simp [hc] at h

/-- A supplied `duration_minutes` that validated parses to a positive
integer. -/
theorem validateDuration_ok_lookup {upds : List (String × Val)} {a : Option Int}
    {v : Val} (h : validateDuration upds = .ok a)
    (hl : lookupUpd upds "duration_minutes" = some v) :
    ∃ d, pyInt v = some d ∧ 0 < d := by
  unfold validateDuration at h
  simp only [hl] at h
  cases hpi : pyInt v with
  | none => simp only [hpi] at h; simp at h
  | some d =>
    simp only [hpi] at h
    refine ⟨d, rfl, ?_⟩
    by_contra hc
    rw [if_pos (by omega)] at h
    simp at h

/-- A supplied `price` that validated parses to a non-negative decimal. -/
theorem validatePrice_ok_lookup {upds : List (String × Val)} {a : Option ℚ}
    {v : Val} (h : validatePrice upds = .ok a)
    (hl : lookupUpd upds "price" = some v) :
    ∃ p, pyFloat v = some p ∧ ¬ p < 0 := by
  unfold validatePrice at h
  simp only [hl] at h
  cases hpf : pyFloat v with
  | none => simp only [hpf] at h; simp at h
  | some p =>
    simp only [hpf] at h
    refine ⟨p, rfl, ?_⟩
    intro hc
    rw [if_pos hc] at h
    simp at h

/-- A supplied `state` that validated coerces to a boolean. -/
theorem validateState_ok_lookup {upds : List (String × Val)} {a : Option Bool}
    {v : Val} (h : validateState upds = .ok a)
    (hl : lookupUpd upds "state" = some v) :
    ∃ b, coerceState v = some b := by
  unfold validateState at h
  simp only [hl] at h
  cases hcs : coerceState v with
  | none => simp only [hcs] at h; simp at h
  | some b => exact ⟨b, rfl⟩

/-- Every failing branch of `update_imported_row` leaves the store
untouched. -/
theorem updateImportedRow_fail_eq (db : DB) (user idImport : Nat)
    (upds : List (String × Val)) :
    (updateImportedRow db user idImport upds).1.1 = false →
    (updateImportedRow db user idImport upds).2 = db := by
  unfold updateImportedRow
  split
  · intro _; rfl
  · split
    · intro _; rfl
    · split
      · intro _; rfl
      · split
        · intro _; rfl
        · intro h; simp at h

/-- C3: `update_imported_row` rejects atomically — whenever the field map
contains an unknown key, a supplied field fails its validation rule
(empty stripped name, unparseable or non-positive duration, unparseable
or negative price, uncoercible state), or no staged row with the given id
belongs to the principal, the call fails and the store (hence the staged
row) is completely unchanged. -/
theorem update_rejected_atomic (db : DB) (user idImport : Nat)
    (upds : List (String × Val))
    (h : (∃ k v, (k, v) ∈ upds ∧ k ∉ allowedFields) ∨
         (∃ v, lookupUpd upds "name" = some v ∧ pyStrip (pyStr v) = "") ∨
         (∃ v, lookupUpd upds "duration_minutes" = some v ∧
            (pyInt v = none ∨ ∃ d, pyInt v = some d ∧ d ≤ 0)) ∨
         (∃ v, lookupUpd upds "price" = some v ∧
            (pyFloat v = none ∨ ∃ p, pyFloat v = some p ∧ p < 0)) ∨
         (∃ v, lookupUpd upds "state" = some v ∧ coerceState v = none) ∨
         (¬ ∃ r, r ∈ db.data_imported ∧ r.id_import = idImport ∧ r.user_id = user)) :
    (updateImportedRow db user idImport upds).1.1 = false ∧
    (updateImportedRow db user idImport upds).2 = db := by
  have hfail : (updateImportedRow db user idImport upds).1.1 = false := by
    cases hv : validateUpdates upds with
    | error m => simp [updateImportedRow, hv]
    | ok norm =>
      obtain ⟨hkeys, ⟨n, hn⟩, ⟨d, hd⟩, ⟨p, hp⟩, ⟨s, hs⟩⟩ :=
        validateUpdates_ok_parts upds norm hv
      rcases h with ⟨k, v, hkv, hk⟩ | ⟨v, hl, he⟩ | ⟨v, hl, hbad⟩ |
        ⟨v, hl, hbad⟩ | ⟨v, hl, hbad⟩ | hnf
      · exfalso
        have hmem : k ∈ (upds.map (fun p => p.1)).filter
            (fun k => decide (k ∉ allowedFields)) := by
          rw [List.mem_filter]
          exact ⟨List.mem_map_of_mem _ hkv, by simpa using hk⟩
        rw [hkeys] at hmem
        exact absurd hmem (List.not_mem_nil k)
      · exact absurd he (validateName_ok_lookup hn hl)
      · obtain ⟨d0, hd0, hd0pos⟩ := validateDuration_ok_lookup hd hl
        rcases hbad with hnone | ⟨d1, hd1, hd1le⟩
        · rw [hd0] at hnone; exact absurd hnone (by simp)
        · rw [hd0] at hd1
          injection hd1 with hd1
          omega
      · obtain ⟨p0, hp0, hp0nn⟩ := validatePrice_ok_lookup hp hl
        rcases hbad with hnone | ⟨p1, hp1, hp1lt⟩
        · rw [hp0] at hnone; exact absurd hnone (by simp)
        · rw [hp0] at hp1
          injection hp1 with hp1
          rw [← hp1] at hp1lt
          exact absurd hp1lt hp0nn
      · obtain ⟨b0, hb0⟩ := validateState_ok_lookup hs hl
        rw [hb0] at hbad
        exact absurd hbad (by simp)
      · have hfind : db.data_imported.find?
            (fun r => decide (r.id_import = idImport) && decide (r.user_id = user)) =
            none := by
          rw [List.find?_eq_none]
          intro x hx hcontra
          simp only [Bool.and_eq_true, decide_eq_true_eq] at hcontra
          exact hnf ⟨x, hx, hcontra.1, hcontra.2⟩
        by_cases hup : upds = []
        · subst hup
          simp [updateImportedRow, hv]
        · simp [updateImportedRow, hv, hup, hfind]
  exact ⟨hfail, updateImportedRow_fail_eq db user idImport upds hfail⟩

/-- C3, witness: updating a staged row's price to `-1` is rejected and
the staging store is unchanged. -/
theorem update_rejected_atomic_witness :
    (updateImportedRow { exDB with data_imported := [exRowA] } 1 1
        [("price", .vInt (-1))]).1.1 = false ∧
    (updateImportedRow { exDB with data_imported := [exRowA] } 1 1
        [("price", .vInt (-1))]).2 = { exDB with data_imported := [exRowA] } :=
  update_rejected_atomic { exDB with data_imported := [exRowA] } 1 1
    [("price", .vInt (-1))]
    (Or.inr (Or.inr (Or.inr (Or.inl
      ⟨.vInt (-1), by decide, Or.inr ⟨-1, by decide, by decide⟩⟩))))

/-! ## Orchestrator characterization -/

/-- The row loop without the time budget: stages or rejects every row in
order.  Used to characterize `processRows`. -/
def stageRows (user : Nat) (sheet : String) : DB → Nat → List Row → DB
  | db, _, [] => db
  | db, idx, row :: rest =>
    stageRows user sheet (processRow user sheet (idx + 2) db row) (idx + 1) rest

/-- Index of the first row whose EXECUTED budget check trips
(`time > max_time`), given the elapsed time `now`.  An empty-name row
never executes the check (the source's `continue` skips it), though its
processing still advances the clock. -/
def firstTimeout (maxTime : Nat) : Nat → List (Row × Nat) → Option Nat
  | _, [] => none
  | now, (row, c) :: rest =>
    if pyStrip (pyStr (rowGet row "name")) = "" then
      (firstTimeout maxTime (now + c) rest).map (fun k => k + 1)
    else if maxTime < now + c then some 0
    else (firstTimeout maxTime (now + c) rest).map (fun k => k + 1)

/-- `processRows` is the budget-free loop truncated at the first
executed timeout check that trips: with no such check it stages every
row; with a first tripping check at index `k` it stages exactly the rows
up to and including `k` and reports the timeout. -/
theorem processRows_eq (user maxTime : Nat) (sheet : String) :
    ∀ (rows : List (Row × Nat)) (db : DB) (now idx : Nat),
      processRows user maxTime sheet db now idx rows =
        match firstTimeout maxTime now rows with
        | none =>
            (stageRows user sheet db idx (rows.map (fun rc => rc.1)),
             now + (rows.map (fun rc => rc.2)).sum, false)
        | some k =>
            (stageRows user sheet db idx ((rows.take (k + 1)).map (fun rc => rc.1)),
             now + ((rows.take (k + 1)).map (fun rc => rc.2)).sum, true) := by
  intro rows
  induction rows with
  | nil =>
    intro db now idx
    simp [processRows, firstTimeout, stageRows]
  | cons rc rest ih =>
    intro db now idx
    obtain ⟨row, cost⟩ := rc
    by_cases hname : pyStrip (pyStr (rowGet row "name")) = ""
    · simp only [processRows, firstTimeout, if_pos hname]
      rw [ih]
      cases hft : firstTimeout maxTime (now + cost) rest with
      | none => simp [stageRows, Nat.add_assoc]
      | some k => simp [stageRows, Nat.add_assoc]
    · by_cases htime : maxTime < now + cost
      · simp only [processRows, firstTimeout, if_neg hname, if_pos htime]
        simp [stageRows]
      · simp only [processRows, firstTimeout, if_neg hname, if_neg htime]
        rw [ih]
        cases hft : firstTimeout maxTime (now + cost) rest with
        | none => simp [stageRows, Nat.add_assoc]
        | some k => simp [stageRows, Nat.add_assoc]

/-! ## Append-only structure of the orchestrator -/

/-- One row's processing only appends to `data_imported`. -/
theorem processRow_imported_append (user : Nat) (sheet : String) (num : Nat)
    (db : DB) (row : Row) :
    ∃ t, (processRow user sheet num db row).data_imported =
      db.data_imported ++ t := by
  unfold processRow
  repeat' split
  all_goals
    first
      | (refine ⟨[], ?_⟩; simp [DB.addError]; done)
      | exact ⟨_, rfl⟩

/-- The budget-free loop only appends to `data_imported`. -/
theorem stageRows_imported_append (user : Nat) (sheet : String) :
    ∀ (rows : List Row) (db : DB) (idx : Nat),
      ∃ t, (stageRows user sheet db idx rows).data_imported =
        db.data_imported ++ t := by
  intro rows
  induction rows with
  | nil => intro db idx; exact ⟨[], by simp [stageRows]⟩
  | cons row rest ih =>
    intro db idx
    obtain ⟨t1, h1⟩ := processRow_imported_append user sheet (idx + 2) db row
    obtain ⟨t2, h2⟩ := ih (processRow user sheet (idx + 2) db row) (idx + 1)
    exact ⟨t1 ++ t2, by simp [stageRows, h2, h1]⟩

/-- The timed row loop only appends to `data_imported`. -/
theorem processRows_imported_append (user maxTime : Nat) (sheet : String)
    (rows : List (Row × Nat)) (db : DB) (now idx : Nat) :
    ∃ t, (processRows user maxTime sheet db now idx rows).1.data_imported =
      db.data_imported ++ t := by
  rw [processRows_eq]
  cases firstTimeout maxTime now rows with
  | none => simpa using stageRows_imported_append user sheet _ db idx
  | some k => simpa using stageRows_imported_append user sheet _ db idx

/-- One sheet's processing only appends to `data_imported`. -/
theorem processSheet_imported_append (user maxTime : Nat) (st : DB × Nat)
    (res : ImportResults) (s : Sheet) :
    ∃ t, (processSheet user maxTime st res s).1.1.data_imported =
      st.1.data_imported ++ t := by
  unfold processSheet
  split
  · exact ⟨[], by simp [DB.addError]⟩
  · split
    · rename_i heq
      obtain ⟨t, ht⟩ := processRows_imported_append user maxTime s.sheet_name
        s.rows st.1 st.2 0
      rw [heq] at ht
      exact ⟨t, by simpa [DB.addError] using ht⟩
    · rename_i heq
      obtain ⟨t, ht⟩ := processRows_imported_append user maxTime s.sheet_name
        s.rows st.1 st.2 0
      rw [heq] at ht
      exact ⟨t, by simpa using ht⟩

/-- A whole run only appends to `data_imported`: every row staged before
any later failure or timeout remains staged. -/
theorem processSheets_imported_append (user maxTime : Nat) :
    ∀ (sheets : List Sheet) (st : DB × Nat) (res : ImportResults),
      ∃ t, (processSheets user maxTime st res sheets).1.1.data_imported =
        st.1.data_imported ++ t := by
  intro sheets
  induction sheets with
  | nil => intro st res; exact ⟨[], by simp [processSheets]⟩
  | cons s rest ih =>
    intro st res
    obtain ⟨t1, h1⟩ := processSheet_imported_append user maxTime st res s
    obtain ⟨t2, h2⟩ := ih (processSheet user maxTime st res s).1
      (processSheet user maxTime st res s).2
    exact ⟨t1 ++ t2, by simp [processSheets, h2, h1]⟩

/-- A sheet with missing required columns: one sheet-level error, sheet
marked invalid, row loop never entered. -/
theorem processSheet_missing (user maxTime : Nat) (st : DB × Nat)
    (res : ImportResults) (s : Sheet) (h : missingCols s ≠ []) :
    processSheet user maxTime st res s =
      ((st.1.addError ⟨s.sheet_name, 0, .missingColumns (missingCols s), user⟩, st.2),
       { res with invalid_sheets := res.invalid_sheets ++ [s.sheet_name] }) := by
  unfold processSheet
  rw [if_pos h]

/-- One sheet's processing only appends to the invalid-sheet list. -/
theorem processSheet_invalid_append (user maxTime : Nat) (st : DB × Nat)
    (res : ImportResults) (s : Sheet) :
    ∃ t, (processSheet user maxTime st res s).2.invalid_sheets =
      res.invalid_sheets ++ t := by
  unfold processSheet
  split
  · exact ⟨_, rfl⟩
  · split
    · exact ⟨_, rfl⟩
    · exact ⟨[], by simp⟩

/-- A whole run only appends to the invalid-sheet list. -/
theorem processSheets_invalid_append (user maxTime : Nat) :
    ∀ (sheets : List Sheet) (st : DB × Nat) (res : ImportResults),
      ∃ t, (processSheets user maxTime st res sheets).2.invalid_sheets =
        res.invalid_sheets ++ t := by
  intro sheets
  induction sheets with
  | nil => intro st res; exact ⟨[], by simp [processSheets]⟩
  | cons s rest ih =>
    intro st res
    obtain ⟨t1, h1⟩ := processSheet_invalid_append user maxTime st res s
    obtain ⟨t2, h2⟩ := ih (processSheet user maxTime st res s).1
      (processSheet user maxTime st res s).2
    exact ⟨t1 ++ t2, by simp [processSheets, h2, h1]⟩

/-! ## Claim C4 -/

/-- A column-valid sheet whose first row has an empty name and consumes
1000 s (beyond the 180 s budget), followed by a valid row. -/
def sheetEN : Sheet :=
  { sheet_name := "S", columns := expectedColumns,
    rows := [(emptyNameRow, 1000), (goodRow, 1)] }

/-- C4, counterexample: the budget (180 s) is already exceeded when the
first row of `sheetEN` finishes at t = 1000, but that row's empty name
makes the source `continue` past the budget check (lines 87-94 skip line
145), so the second row is still validated and staged — `data_imported`
ends holding the second row's record — refuting "no further rows of that
sheet are validated or staged" as stated.  The timeout is only raised at
the second row's check (t = 1001), after which the sheet-level timeout
error is written. -/
theorem timeout_claim_counterexample :
    180 < 0 + 1000 ∧
    processSheet 1 180 (exDB, 0)
        { filename := "f.xlsx", valid_sheets := [], invalid_sheets := [],
          total_rows := 0 } sheetEN =
      ((⟨[⟨1, "S", "Cut", none, 30, 10, true, 1⟩],
         [⟨"S", 2, .emptyName, 1⟩, ⟨"S", 0, .sheetTimeout 180, 1⟩],
         [], 2, 1⟩, 1001),
       ⟨"f.xlsx", ["S"], ["S"], 2⟩) := by
  constructor
  · decide
  · decide

/-- C4, amended: the budget exceedance is acted on at the first EXECUTED
per-row check that trips (an empty-name row's `continue` skips the
check): when that check trips at row `k` of a column-valid sheet, the
sheet's processing stages exactly the rows up to and including `k` (no
further row is validated or staged), appends one sheet-level
StagingError recording the timeout, and marks the sheet invalid; and any
orchestrator run only appends to `data_imported`, so every row staged
before the timeout (in that sheet and in earlier sheets) remains in the
staging store. -/
theorem timeout_aborts_sheet :
    (∀ (user maxTime : Nat) (s : Sheet) (db : DB) (now : Nat)
       (res : ImportResults) (k : Nat),
       missingCols s = [] →
       firstTimeout maxTime now s.rows = some k →
       processSheet user maxTime (db, now) res s =
         ((DB.addError
             (stageRows user s.sheet_name db 0 ((s.rows.take (k + 1)).map (fun rc => rc.1)))
             ⟨s.sheet_name, 0, .sheetTimeout maxTime, user⟩,
           now + ((s.rows.take (k + 1)).map (fun rc => rc.2)).sum),
          { res with
              valid_sheets := res.valid_sheets ++ [s.sheet_name],
              total_rows := res.total_rows + s.rows.length,
              invalid_sheets := res.invalid_sheets ++ [s.sheet_name] })) ∧
    (∀ (user maxTime : Nat) (sheets : List Sheet) (st : DB × Nat)
       (res : ImportResults),
       ∃ t, (processSheets user maxTime st res sheets).1.1.data_imported =
         st.1.data_imported ++ t) := by
  constructor
  · intro user maxTime s db now res k hcols hk
    have hpr := processRows_eq user maxTime s.sheet_name s.rows db now 0
    rw [hk] at hpr
    unfold processSheet
    rw [if_neg (by simp [hcols])]
    rw [hpr]
  · intro user maxTime sheets st res
    exact processSheets_imported_append user maxTime sheets st res

/-- C4, witness: the timeout theorem applied to a sheet whose first row
costs 1000 s against a 180 s budget, plus append-only at a concrete
run. -/
theorem timeout_aborts_sheet_witness :
    processSheet 1 180 (exDB, 0)
        { filename := "f.xlsx", valid_sheets := [], invalid_sheets := [],
          total_rows := 0 } sheetTO =
      ((DB.addError
          (stageRows 1 sheetTO.sheet_name exDB 0 ((sheetTO.rows.take 1).map (fun rc => rc.1)))
          ⟨sheetTO.sheet_name, 0, .sheetTimeout 180, 1⟩,
        0 + ((sheetTO.rows.take 1).map (fun rc => rc.2)).sum),
       { filename := "f.xlsx",
         valid_sheets := [] ++ [sheetTO.sheet_name],
         invalid_sheets := [] ++ [sheetTO.sheet_name],
         total_rows := 0 + sheetTO.rows.length }) :=
  timeout_aborts_sheet.1 1 180 sheetTO exDB 0
    { filename := "f.xlsx", valid_sheets := [], invalid_sheets := [],
      total_rows := 0 } 0 (by decide) (by decide)

/-! ## Claim C5 -/

/-- C5: a sheet whose column set misses required columns is rejected with
exactly one sheet-level StagingError at row number 0 naming the missing
columns, stages nothing, is appended to the invalid list, and processing
continues with the sibling sheets; the run only appends to the
invalid-sheet list; and the concrete two-sheet run stages only the valid
sibling's row. -/
theorem missing_columns_sheet_rejected :
    (∀ (user maxTime : Nat) (st : DB × Nat) (res : ImportResults) (s : Sheet)
       (rest : List Sheet),
       missingCols s ≠ [] →
       processSheets user maxTime st res (s :: rest) =
         processSheets user maxTime
           (st.1.addError ⟨s.sheet_name, 0, .missingColumns (missingCols s), user⟩, st.2)
           { res with invalid_sheets := res.invalid_sheets ++ [s.sheet_name] } rest) ∧
    (∀ (user maxTime : Nat) (sheets : List Sheet) (st : DB × Nat)
       (res : ImportResults),
       ∃ t, (processSheets user maxTime st res sheets).2.invalid_sheets =
         res.invalid_sheets ++ t) ∧
    processExcel 1 180 "f.xlsx" [sheetM, sheetB] exDB 0 =
      (⟨[⟨1, "S", "Cut", none, 30, 10, true, 1⟩],
        [⟨"M", 0, .missingColumns ["description", "duration_minutes", "state"], 1⟩,
         ⟨"S", 2, .invalidDuration, 1⟩],
        [], 2, 1⟩,
       ⟨"f.xlsx", ["S"], ["M"], 2⟩) := by
  refine ⟨?_, ?_, by decide⟩
  · intro user maxTime st res s rest h
    simp only [processSheets, processSheet_missing user maxTime st res s h]
  · intro user maxTime sheets st res
    exact processSheets_invalid_append user maxTime sheets st res

/-- C5, witness: the rejection equation applied to the concrete sheet
with columns `{name, price}`. -/
theorem missing_columns_sheet_rejected_witness :
    processSheets 1 180 (exDB, 0)
        { filename := "f.xlsx", valid_sheets := [], invalid_sheets := [],
          total_rows := 0 } [sheetM] =
      processSheets 1 180
        (DB.addError exDB ⟨sheetM.sheet_name, 0, .missingColumns (missingCols sheetM), 1⟩, 0)
        { filename := "f.xlsx", valid_sheets := [],
          invalid_sheets := [] ++ [sheetM.sheet_name], total_rows := 0 } [] :=
  missing_columns_sheet_rejected.1 1 180 (exDB, 0)
    { filename := "f.xlsx", valid_sheets := [], invalid_sheets := [],
      total_rows := 0 } sheetM [] (by decide)

/-! ## Claim C6 -/

/-- C6: a row whose stripped name is empty, whose duration is unparseable
or non-positive, or whose price is unparseable or negative, produces
exactly one row-level StagingError and no staged row; the row loop then
continues with the sibling rows at the next index (row numbers are the
0-based index plus 2); concretely, a two-row sheet whose first row has
duration `"-5"` yields one error at row number 2 and stages only the
second row. -/
theorem invalid_row_single_error :
    (∀ (user : Nat) (sheet : String) (num : Nat) (db : DB) (row : Row),
       (pyStrip (pyStr (rowGet row "name")) = "" ∨
        pyInt (rowGet row "duration_minutes") = none ∨
        (∃ d, pyInt (rowGet row "duration_minutes") = some d ∧ d ≤ 0) ∨
        pyFloat (rowGet row "price") = none ∨
        (∃ p, pyFloat (rowGet row "price") = some p ∧ p < 0)) →
       ∃ m, processRow user sheet num db row =
         DB.addError db ⟨sheet, num, m, user⟩) ∧
    (∀ (user maxTime : Nat) (sheet : String) (db : DB) (now idx : Nat)
       (row : Row) (cost : Nat) (rest : List (Row × Nat)),
       ¬ maxTime < now + cost →
       processRows user maxTime sheet db now idx ((row, cost) :: rest) =
         processRows user maxTime sheet (processRow user sheet (idx + 2) db row)
           (now + cost) (idx + 1) rest) ∧
    processExcel 1 180 "f.xlsx" [sheetB] exDB 0 =
      (⟨[⟨1, "S", "Cut", none, 30, 10, true, 1⟩],
        [⟨"S", 2, .invalidDuration, 1⟩],
        [], 2, 1⟩,
       ⟨"f.xlsx", ["S"], [], 2⟩) := by
  refine ⟨?_, ?_, by decide⟩
  · intro user sheet num db row h
    by_cases hname : pyStrip (pyStr (rowGet row "name")) = ""
    · exact ⟨.emptyName, by simp [processRow, hname]⟩
    · cases hpi : pyInt (rowGet row "duration_minutes") with
      | none =>
        exact ⟨.intParseError (rowGet row "duration_minutes"),
          by simp [processRow, hname, hpi]⟩
      | some dur =>
        cases hpf : pyFloat (rowGet row "price") with
        | none =>
          exact ⟨.floatParseError (rowGet row "price"),
            by simp [processRow, hname, hpi, hpf]⟩
        | some price =>
          cases hcs : coerceState (rowGet row "state") with
          | none =>
            exact ⟨.stateError (rowGet row "state"),
              by simp [processRow, hname, hpi, hpf, hcs]⟩
          | some st =>
            by_cases hdur : dur ≤ 0
            · exact ⟨.invalidDuration,
                by simp [processRow, hname, hpi, hpf, hcs, hdur]⟩
            · by_cases hpr : price < 0
              · exact ⟨.negativePrice,
                  by simp [processRow, hname, hpi, hpf, hcs, hdur, hpr]⟩
              · exfalso
                rcases h with h | h | ⟨d, hd, hdle⟩ | h | ⟨p, hp, hplt⟩
                · exact hname h
                · rw [hpi] at h; exact absurd h (by simp)
                · rw [hpi] at hd; injection hd with hd; omega
                · rw [hpf] at h; exact absurd h (by simp)
                · rw [hpf] at hp; injection hp with hp
                  rw [← hp] at hplt; exact hpr hplt
  · intro user maxTime sheet db now idx row cost rest h
    simp only [processRows]
    simp [h]

/-- C6, witness: the single-error equation applied to the row with
duration `"-5"`. -/
theorem invalid_row_single_error_witness :
    ∃ m, processRow 1 "S" 2 exDB badRow = DB.addError exDB ⟨"S", 2, m, 1⟩ :=
  invalid_row_single_error.1 1 "S" 2 exDB badRow
    (Or.inr (Or.inr (Or.inl ⟨-5, by decide, by decide⟩)))

/-! ## Claim C9 -/

/-- C9: `valid_sheets` and `invalid_sheets` are not disjoint — a sheet
appended to `valid_sheets` after passing the column check is also
appended to `invalid_sheets` when the time budget interrupts it
mid-processing, so on this input the sheet `S` appears in both lists. -/
theorem sheet_in_both_lists :
    "S" ∈ (processExcel 1 180 "f.xlsx" [sheetTO] exDB 0).2.valid_sheets ∧
    "S" ∈ (processExcel 1 180 "f.xlsx" [sheetTO] exDB 0).2.invalid_sheets := by
  constructor <;> decide

/-! ## Claim C10 -/

/-- Membership in the `SELECT DISTINCT` fold. -/
theorem mem_distinctAux (l : List String) :
    ∀ (acc : List String) (s : String),
      s ∈ l.foldl (fun acc s => if s ∈ acc then acc else acc ++ [s]) acc ↔
        s ∈ acc ∨ s ∈ l := by
  induction l with
  | nil => intro acc s; simp
  | cons x xs ih =>
    intro acc s
    rw [List.foldl_cons, ih]
    by_cases hx : x ∈ acc
    · rw [if_pos hx]
      have hsx : s = x → s ∈ acc := fun h => h ▸ hx
      simp only [List.mem_cons]
      tauto
    · rw [if_neg hx]
      simp only [List.mem_append, List.mem_cons, List.mem_singleton]
      tauto

/-- The `SELECT DISTINCT` fold returns a duplicate-free list. -/
theorem nodup_distinctAux (l : List String) :
    ∀ acc : List String, acc.Nodup →
      (l.foldl (fun acc s => if s ∈ acc then acc else acc ++ [s]) acc).Nodup := by
  induction l with
  | nil => intro acc h; simpa using h
  | cons x xs ih =>
    intro acc h
    rw [List.foldl_cons]
    apply ih
    by_cases hx : x ∈ acc
    · rw [if_pos hx]; exact h
    · rw [if_neg hx]
      simp [List.nodup_append, h, hx]

/-- `distinctList` preserves membership. -/
theorem mem_distinctList {l : List String} {s : String} :
    s ∈ distinctList l ↔ s ∈ l := by
  unfold distinctList
  rw [mem_distinctAux]
  simp

/-- `distinctList` is duplicate-free. -/
theorem nodup_distinctList (l : List String) : (distinctList l).Nodup :=
  nodup_distinctAux l [] (by simp)

/-- The number of distinct values equals the cardinality of the value
set. -/
theorem distinctList_length (l : List String) :
    (distinctList l).length = l.toFinset.card := by
  have h1 : (distinctList l).toFinset = l.toFinset := by
    ext s
    simp [List.mem_toFinset, mem_distinctList]
  rw [← h1, List.toFinset_card_of_nodup (nodup_distinctList l)]

/-- Characterization of the sheets having staged data. -/
theorem mem_userSheets {db : DB} {user : Nat} {s : String} :
    s ∈ userSheets db user ↔
      ∃ r ∈ db.data_imported, r.user_id = user ∧ r.sheet_name = s := by
  unfold userSheets
  rw [mem_distinctList]
  simp only [List.mem_map, List.mem_filter, decide_eq_true_eq]
  constructor
  · rintro ⟨r, ⟨hr, hru⟩, hrs⟩
    exact ⟨r, hr, hru, hrs⟩
  · rintro ⟨r, hr, hru, hrs⟩
    exact ⟨r, ⟨hr, hru⟩, hrs⟩

/-- Characterization of the error-only sheets. -/
theorem mem_errorOnlySheets {db : DB} {user : Nat} {s : String} :
    s ∈ errorOnlySheets db user ↔
      (∃ e ∈ db.data_errors, e.user_id = user ∧ e.sheet_name = s) ∧
        s ∉ userSheets db user := by
  unfold errorOnlySheets
  rw [List.mem_filter, mem_distinctList]
  simp only [List.mem_map, List.mem_filter, decide_eq_true_eq]
  constructor
  · rintro ⟨⟨e, ⟨he, heu⟩, hes⟩, hns⟩
    exact ⟨⟨e, he, heu, hes⟩, hns⟩
  · rintro ⟨⟨e, he, heu, hes⟩, hns⟩
    exact ⟨⟨e, ⟨he, heu⟩, hes⟩, hns⟩

/-- C10: in `get_uploaded_sheets_by_user`, `total_sheets` counts only the
distinct sheets that have at least one staged row; every error-only sheet
still appears in the per-sheet grouping with an empty data list; and
`has_invalid_sheets` holds exactly when some staging error's sheet has no
staged row for the principal. -/
theorem listStaged_summary (db : DB) (user : Nat) :
    (getUploadedSheetsByUser db user).total_sheets =
      ((db.data_imported.filter (fun r => decide (r.user_id = user))).map
        (fun r => r.sheet_name)).toFinset.card ∧
    (∀ e ∈ db.data_errors, e.user_id = user →
      (∀ r ∈ db.data_imported, r.user_id = user → r.sheet_name ≠ e.sheet_name) →
      ∃ g ∈ (getUploadedSheetsByUser db user).groups,
        g.sheet = e.sheet_name ∧ g.data = []) ∧
    ((getUploadedSheetsByUser db user).has_invalid_sheets = true ↔
      ∃ e ∈ db.data_errors, e.user_id = user ∧
        ∀ r ∈ db.data_imported, r.user_id = user → r.sheet_name ≠ e.sheet_name) := by
  refine ⟨?_, ?_, ?_⟩
  · simp only [getUploadedSheetsByUser]
    exact distinctList_length _
  · intro e he heu hnone
    have hmem : e.sheet_name ∈ errorOnlySheets db user := by
      rw [mem_errorOnlySheets]
      refine ⟨⟨e, he, heu, rfl⟩, ?_⟩
      rw [mem_userSheets]
      rintro ⟨r, hr, hru, hrs⟩
      exact hnone r hr hru hrs
    refine ⟨errorGroupOf db user e.sheet_name, ?_, rfl, rfl⟩
    simp only [getUploadedSheetsByUser, List.mem_append]
    exact Or.inr (List.mem_map_of_mem _ hmem)
  · simp only [getUploadedSheetsByUser, decide_eq_true_eq]
    rw [gt_iff_lt, List.length_pos_iff_ne_nil]
    constructor
    · intro hne
      obtain ⟨s, hs⟩ := List.exists_mem_of_ne_nil _ hne
      rw [mem_errorOnlySheets] at hs
      obtain ⟨⟨e, he, heu, hes⟩, hns⟩ := hs
      refine ⟨e, he, heu, ?_⟩
      intro r hr hru hrs
      apply hns
      rw [mem_userSheets]
      exact ⟨r, hr, hru, by rw [hrs, hes]⟩
    · rintro ⟨e, he, heu, hnone⟩
      apply List.ne_nil_of_mem (a := e.sheet_name)
      rw [mem_errorOnlySheets]
      refine ⟨⟨e, he, heu, rfl⟩, ?_⟩
      rw [mem_userSheets]
      rintro ⟨r, hr, hru, hrs⟩
      exact hnone r hr hru hrs

/-- A store with one staged row on sheet `S` and one error on sheet `E`. -/
def exDBerr : DB :=
  { exDB with data_imported := [exRowA], data_errors := [⟨"E", 0, .emptyName, 1⟩] }

/-- C10, witness: with one staged row on sheet `S` and one error on sheet
`E`, the error-only sheet `E` appears in the grouping with an empty data
list. -/
theorem listStaged_summary_witness :
    ∃ g ∈ (getUploadedSheetsByUser exDBerr 1).groups,
      g.sheet = "E" ∧ g.data = [] :=
  (listStaged_summary exDBerr 1).2.1
    ⟨"E", 0, .emptyName, 1⟩ (by decide) (by decide) (by decide)

end BackendSoul
